import Mathlib

/-!
Verification of the video-api backend ledger.

This file shallowly embeds the HTTP handlers of the repository — the main
revision `src/server.js` (namespace `Server`) and the near-duplicate revision
`src/unnamed/part_002` (namespace `Rev2`) — over an explicit relational-store
state.  PostgreSQL tables become Lean lists, `NOW()` becomes an explicit
`now : Nat` parameter (seconds), `Math.random()` draws become explicit input
parameters, and each handler returns its HTTP response, the resulting store,
and the ordered trace of store/cache I/O events it performs (used for the
cache-coherence and read-path claims).
-/

namespace VideoApi

/-- One row of the `users` table (the Identity Store).  Columns are the ones
named by the queries of `server.js` / `part_002`; `coins` is an `Int` so that
the non-negativity invariant is a real statement.  Columns a given INSERT does
not list take the listed defaults (the DDL is not part of `src/`; none of the
claims depends on those defaults). -/
structure Account where
  id : Nat
  device_id : String
  phone : Option String := none
  name : Option String := none
  coins : Int := 0
  referral_code : String := ""
  referred_by : Option String := none
  has_reviewed : Bool := false
  share_count : Nat := 0
  app_opens : Nat := 0
  total_session_duration : Nat := 0
  avg_session_duration : Nat := 0
  last_active : Nat := 0
  is_premium : Bool := false
  premium_purchased_at : Option Nat := none
  premium_expires_at : Option Nat := none
  created_at : Nat := 0
deriving Repr, DecidableEq

/-- One row of the `user_sessions` table. -/
structure Session where
  device_id : String
  session_id : String
  start_time : Nat
  end_time : Option Nat := none
  session_duration : Nat := 0
deriving Repr, DecidableEq

/-- One row of the `videos` catalog table (only the columns the
`GET /api/videos` query touches). -/
structure Video where
  vid : Nat
  sect : String
  created_at : Nat
deriving Repr, DecidableEq

/-- The durable relational store: `users`, `user_sessions`, `shares`
(rows are `(user_id, share_id)` pairs) and `videos`; `planDuration` is the
`duration_days` of the single active `premium_plans` row, when configured. -/
structure Store where
  users : List Account := []
  sessions : List Session := []
  shares : List (Nat × String) := []
  videos : List Video := []
  planDuration : Option Nat := none
deriving Repr, DecidableEq

/-- The empty initial store. -/
def Store.init : Store := {}

/-- The JSON user object that `register-device`, `submit-review` and
`share-app` return (`userData` in the source). -/
structure UserView where
  id : Nat
  device_id : String
  coins : Int
  referral_code : String
  referral_url : String
  has_reviewed : Bool
  share_count : Nat
deriving Repr, DecidableEq

/-- The `userData` object as built from a `users` row by the reward/registration
handlers: `referral_url` is `bageshwardham://refer?ref=` followed by the
referral code. -/
def mkUserView (u : Account) : UserView :=
  { id := u.id, device_id := u.device_id, coins := u.coins,
    referral_code := u.referral_code,
    referral_url := "bageshwardham://refer?ref=" ++ u.referral_code,
    has_reviewed := u.has_reviewed, share_count := u.share_count }

/-- An HTTP response: a bare success status, a success status carrying a
user object, or an error status with the handler's error message. -/
inductive Resp where
  | ok (code : Nat)
  | okUser (code : Nat) (body : UserView)
  | err (code : Nat) (msg : String)
deriving Repr, DecidableEq

/-- One store/cache I/O event, in the order the handler performs them.
`commit` / `rollback` end an explicit `BEGIN` transaction; cache events carry
their Redis key. -/
inductive Evt where
  | storeRead
  | storeWrite
  | commit
  | rollback
  | cacheGet (key : String)
  | cacheSet (key : String)
  | cacheDel (key : String)
deriving Repr, DecidableEq

/-- The query `SELECT ... FROM users WHERE device_id = $1` (first row). -/
def findByDevice (users : List Account) (did : String) : Option Account :=
  users.find? (fun u => u.device_id == did)

/-- The query `SELECT ... FROM users WHERE id = $1` (first row). -/
def findById (users : List Account) (uid : Nat) : Option Account :=
  users.find? (fun u => u.id == uid)

/-- Whether `SELECT 1 FROM shares WHERE user_id = $1 AND share_id = $2` has a row. -/
def sharePairExists (shares : List (Nat × String)) (uid : Nat) (sid : String) : Bool :=
  shares.any (fun p => p.1 == uid && p.2 == sid)

/-- A fresh surrogate id for an INSERT into `users`: the SERIAL sequence
yields an id larger than every id already present. -/
def nextId (users : List Account) : Nat :=
  (users.map (fun u => u.id)).foldr max 0 + 1

/-- The `generateReferralCode` loop (`server.js` lines 71-81 and `part_002`
lines 60-70): repeatedly draws a random six-digit number, forms
`BGSHWR` + digits and retries while the code is already taken.  The
successive `Math.floor(100000 + Math.random() * 900000)` draws are the
explicit `rands` input; the unbounded do-while is modelled by returning
`none` when the draws are exhausted (the loop not terminating). -/
def generateReferralCode (users : List Account) : List Nat → Option String
  | [] => none
  | n :: rest =>
    let code := "BGSHWR" ++ toString n
    if users.any (fun u => u.referral_code == code) then
      generateReferralCode users rest
    else
      some code

/-- Rounding of the exact quotient `a / b` (`b > 0`) to the nearest integer
with halves rounded up — what PostgreSQL's `numeric → integer` cast does on
the non-negative values that occur here — written as `(2a + b) / (2b)` in
natural-number division. -/
def roundDiv (a b : Nat) : Nat := (2 * a + b) / (2 * b)

/-- The `avg_session_duration` CASE expression of the users UPDATE in
`POST /api/session/end` (`server.js` lines 281-284), evaluated on the old
row values: `CASE WHEN app_opens = 0 THEN GREATEST(1, d) ELSE
GREATEST(1, (total + d)::numeric / (app_opens + 1)) END::integer`.
On the non-negative integers involved, `GREATEST(1, ·)` commutes with the
rounding `::integer` cast, so the ELSE branch is `max 1` of the rounded
quotient. -/
def avgCase (appOpens total d : Nat) : Nat :=
  if appOpens == 0 then max 1 d
  else max 1 (roundDiv (total + d) (appOpens + 1))

/-- JavaScript's `String.prototype.trim()`: strip leading and trailing
whitespace (written over the character list so it evaluates by
reduction). -/
def jsTrim (s : String) : String :=
  ⟨((s.data.dropWhile Char.isWhitespace).reverse.dropWhile
      Char.isWhitespace).reverse⟩

/-! Per-row effects of the UPDATE statements, named so the theorems can
speak about them; each is the row-level semantics of one UPDATE of the
source (rows not matching the WHERE clause are returned unchanged). -/

/-- Row effect of `UPDATE users SET app_opens = app_opens + 1, last_active = NOW()
WHERE device_id = $1` (session-start, `server.js` lines 189-196). -/
def startBump (did : String) (now : Nat) (u : Account) : Account :=
  if u.device_id == did then
    { u with app_opens := u.app_opens + 1, last_active := now }
  else u

/-- The users UPDATE of session-end (`server.js` lines 275-287): bump
`app_opens` and `total_session_duration`, refresh `last_active`, recompute
`avg_session_duration` from the old row values. -/
def endBump (did : String) (d : Nat) (now : Nat) (u : Account) : Account :=
  if u.device_id == did then
    { u with app_opens := u.app_opens + 1,
             total_session_duration := u.total_session_duration + d,
             last_active := now,
             avg_session_duration := avgCase u.app_opens u.total_session_duration d }
  else u

/-- The user_sessions UPDATE of session-end (`server.js` lines 263-270). -/
def endSessRow (sid did : String) (d : Nat) (now : Nat) (s : Session) : Session :=
  if s.session_id == sid && s.device_id == did then
    { s with session_duration := d, end_time := some now }
  else s

/-- Row effect of `UPDATE users SET phone = $1, name = $2, last_active = NOW()
WHERE device_id = $3` (profile, `server.js` line 413). -/
def profileUpd (did name phone : String) (now : Nat) (u : Account) : Account :=
  if u.device_id == did then
    { u with phone := some phone, name := some (jsTrim name),
             last_active := now }
  else u

/-- Row effect of `UPDATE users SET coins = coins + 50, has_reviewed = TRUE
WHERE id = $1` (submit-review, both revisions). -/
def reviewBump (uid : Nat) (v : Account) : Account :=
  if v.id == uid then { v with coins := v.coins + 50, has_reviewed := true }
  else v

/-- Row effect of `UPDATE users SET coins = coins + 10, share_count = share_count + 1
WHERE id = $1` (share-app, both revisions). -/
def shareBump (uid : Nat) (v : Account) : Account :=
  if v.id == uid then
    { v with coins := v.coins + 10, share_count := v.share_count + 1 }
  else v

/-- Row effect of `UPDATE users SET coins = coins + 10 WHERE referral_code = $1`
(register-device referral credit, `server.js` line 561). -/
def refBump (code : String) (u : Account) : Account :=
  if u.referral_code == code then { u with coins := u.coins + 10 } else u

/-- The users UPDATE of activate-premium (`server.js` lines 458-465);
`duration_days` is converted to seconds of expiry window. -/
def premiumBump (did : String) (now dur : Nat) (u : Account) : Account :=
  if u.device_id == did then
    { u with is_premium := true, premium_purchased_at := some now,
             premium_expires_at := some (now + dur * 86400) }
  else u

/-- The `users` row the register-device INSERT creates (`server.js`
lines 566-570). -/
def regAcct (did : String) (coins : Int) (referredBy : Option String)
    (code : String) (newId : Nat) : Account :=
  { id := newId, device_id := did, coins := coins, referral_code := code,
    referred_by := referredBy, has_reviewed := false, share_count := 0,
    is_premium := false }

namespace Server

/-- Handler of `POST /api/session/start` (`server.js` lines 165-226): validates the two
ids, inserts a `user_sessions` row with `start_time = now` and duration 0,
increments the account's `app_opens` and refreshes `last_active`; when no
account row matched, inserts a fresh account with `coins = 0`,
`referral_code = 'FREE_' || substr(md5(random()::text), 1, 8)` and
`app_opens = 1` — all inside one transaction.  `hex` is the explicit
8-character output of `substr(md5(random()::text), 1, 8)`. -/
def sessionStart (did sid hex : String) (now : Nat) (st : Store) :
    Resp × Store × List Evt :=
  if did = "" ∨ sid = "" then
    (.err 400 "Missing device_id or session_id", st, [])
  else
    let st1 : Store := { st with sessions := st.sessions ++
      [{ device_id := did, session_id := sid, start_time := now,
         session_duration := 0 }] }
    let rowCount := (st1.users.filter (fun u => u.device_id == did)).length
    let st2 : Store := { st1 with users := st1.users.map (startBump did now) }
    if rowCount = 0 then
      let newU : Account :=
        { id := nextId st2.users, device_id := did, coins := 0,
          referral_code := "FREE_" ++ hex, app_opens := 1,
          last_active := now }
      (.ok 200, { st2 with users := st2.users ++ [newU] },
       [.storeWrite, .storeWrite, .storeWrite, .commit])
    else
      (.ok 200, st2, [.storeWrite, .storeWrite, .commit])

/-- Handler of `POST /api/session/end` (`server.js` lines 229-312): validates input,
looks for a `user_sessions` row with the exact `(session_id, device_id)` pair
(note: with no `end_time IS NULL` condition), 404s when none exists, and
otherwise sets `session_duration` and `end_time = now` on every matching row,
then bumps the account's `app_opens`, `total_session_duration` and recomputes
`avg_session_duration`; after COMMIT it deletes the session- and
device-scoped cache keys. -/
def sessionEnd (did sid : String) (dur : Int) (now : Nat) (st : Store) :
    Resp × Store × List Evt :=
  if did = "" ∨ sid = "" ∨ dur < 0 then
    (.err 400 "Missing/invalid data", st, [])
  else if st.sessions.any (fun s => s.session_id == sid && s.device_id == did) then
    let d := dur.toNat
    let st1 : Store :=
      { st with sessions := st.sessions.map (endSessRow sid did d now) }
    let st2 : Store := { st1 with users := st1.users.map (endBump did d now) }
    (.ok 200, st2,
     [.storeRead, .storeWrite, .storeWrite, .commit,
      .cacheDel ("session:" ++ sid), .cacheDel ("user_device:" ++ did)])
  else
    (.err 404 "Session not found", st, [.storeRead, .rollback])

/-- Handler of `POST /api/profile` (`server.js` lines 395-444): after field validation,
an existing device gets its `phone`/`name`/`last_active` updated and its
cache entry deleted and rewritten — both cache operations issued BEFORE the
transaction's COMMIT; a new device gets a generated referral code and an
account with 5 starting coins, with the cache populated, again, before
COMMIT.  `rands` feeds `generateReferralCode`; a `none` result models the
generation loop not terminating. -/
def profile (name phone did : String) (co : Option Nat) (rands : List Nat)
    (now : Nat) (st : Store) : Option (Resp × Store × List Evt) :=
  if jsTrim name = "" ∨ phone.length ≠ 10 ∨ ¬ (phone.data.all Char.isDigit) ∨ did = "" then
    some (.err 400 "Invalid profile data", st, [])
  else
    match findByDevice st.users did with
    | some _ =>
        let st1 : Store :=
          { st with users := st.users.map (profileUpd did name phone now) }
        some (.ok 200, st1,
          [.storeRead, .storeWrite, .cacheDel ("user_device:" ++ did),
           .cacheSet ("user_device:" ++ did), .commit])
    | none =>
        match generateReferralCode st.users rands with
        | none => none
        | some code =>
            let newU : Account :=
              { id := nextId st.users, device_id := did,
                phone := some phone, name := some (jsTrim name), coins := 5,
                referral_code := code, app_opens := 0,
                total_session_duration := 0, is_premium := false,
                last_active := now, created_at := co.getD now }
            some (.ok 201, { st with users := st.users ++ [newU] },
              [.storeRead, .storeRead, .storeWrite,
               .cacheSet ("user_device:" ++ did), .commit])

/-- The tail of the register-device new-device branch: generate a referral
code (lines 565-570 of `server.js`), insert the account row and, after
COMMIT, cache the response object under `user:{id}`. -/
def finishRegister (did : String) (coins : Int) (referredBy : Option String)
    (rands : List Nat) (st : Store) (evts : List Evt) :
    Option (Resp × Store × List Evt) :=
  match generateReferralCode st.users rands with
  | none => none
  | some code =>
    let newU : Account := regAcct did coins referredBy code (nextId st.users)
    some (.okUser 201 (mkUserView newU),
      { st with users := st.users ++ [newU] },
      evts ++ [.storeRead, .storeWrite, .commit,
        .cacheSet ("user:" ++ toString newU.id)])

/-- Handler of `POST /api/register-device` (`server.js` lines 530-588): an already
registered device gets its existing row echoed back unchanged (COMMIT, then
cache under `user:{id}`).  For a new device, a supplied referral code that
resolves adds 10 coins to every row carrying that code (the code is unique,
so to the referrer), sets `referred_by` and starts the new account at 10
coins; an unresolved code is silently ignored and the account starts at 0. -/
def registerDevice (did : String) (rc : Option String) (rands : List Nat)
    (st : Store) : Option (Resp × Store × List Evt) :=
  if did = "" then some (.err 400 "Missing device_id", st, [])
  else
    match findByDevice st.users did with
    | some u =>
        some (.okUser 200 (mkUserView u), st,
          [.storeRead, .commit, .cacheSet ("user:" ++ toString u.id)])
    | none =>
      match rc with
      | some code =>
        if st.users.any (fun u => u.referral_code == code) then
          let st1 : Store := { st with users := st.users.map (refBump code) }
          finishRegister did 10 (some code) rands st1
            [.storeRead, .storeRead, .storeWrite]
        else
          finishRegister did 0 none rands st [.storeRead, .storeRead]
      | none =>
          finishRegister did 0 none rands st [.storeRead]

/-- Handler of `POST /api/submit-review` (`server.js` lines 627-655): a missing account
and an already-set `has_reviewed` flag are rejected through one shared branch
— both produce the same 400 "Invalid request" response after ROLLBACK;
otherwise the account gets +50 coins and the flag set, and the cache entry is
deleted after COMMIT. -/
def submitReview (uid : Nat) (st : Store) : Resp × Store × List Evt :=
  if uid = 0 then (.err 400 "Missing user_id", st, [])
  else
    match findById st.users uid with
    | none => (.err 400 "Invalid request", st, [.storeRead, .rollback])
    | some u =>
      if u.has_reviewed then (.err 400 "Invalid request", st, [.storeRead, .rollback])
      else
        (.ok 200, { st with users := st.users.map (reviewBump uid) },
         [.storeRead, .storeWrite, .commit, .cacheDel ("user:" ++ toString uid)])

/-- Handler of `POST /api/share-app` (`server.js` lines 658-675): the handler runs
`INSERT INTO shares` then `UPDATE users` inside one transaction, with no
duplicate check of its own.  Modelled from the spec: the ShareEvent invariant
— the `(account_id, share_id)` pair is unique in the shares table (the DDL is
not under `src/`) — makes the INSERT of an already-present pair raise, which
the catch-all turns into ROLLBACK and the generic 500 "Share failed"
response. -/
def shareApp (uid : Nat) (sid : String) (st : Store) : Resp × Store × List Evt :=
  if uid = 0 ∨ sid = "" then (.err 400 "Missing data", st, [])
  else if sharePairExists st.shares uid sid then
    (.err 500 "Share failed", st, [.storeWrite, .rollback])
  else
    (.ok 200,
     { st with shares := st.shares ++ [(uid, sid)],
               users := st.users.map (shareBump uid) },
     [.storeWrite, .storeWrite, .commit])

/-- Handler of `POST /api/admin/activate-premium` (`server.js` lines 447-484): reads the
active plan's `duration_days` (hardcoded fallback 30), sets the premium
window on the device's account and COMMITs before checking whether any row
matched; no row yields a 404 after the (empty) update was committed. -/
def activatePremium (did : String) (now : Nat) (st : Store) :
    Resp × Store × List Evt :=
  if did = "" then (.err 400 "Missing device_id", st, [])
  else
    let dur := st.planDuration.getD 30
    let matched := st.users.any (fun u => u.device_id == did)
    let st1 : Store :=
      { st with users := st.users.map (premiumBump did now dur) }
    if matched then (.ok 200, st1, [.storeRead, .storeWrite, .commit])
    else (.err 404 "Device not found", st1, [.storeRead, .storeWrite, .commit])

end Server

/-- Hexadecimal digit test for the character class `[0-9a-f]` with the `i`
flag (so also `A`-`F`), via the character's code point. -/
def isHexDigit (c : Char) : Bool :=
  c.isDigit || (decide (97 ≤ c.toNat) && decide (c.toNat ≤ 102))
    || (decide (65 ≤ c.toNat) && decide (c.toNat ≤ 70))

/-- The canonical-UUID test of `part_002` line 290:
`/^[0-9a-f]8-[0-9a-f]4-[0-9a-f]4-[0-9a-f]4-[0-9a-f]12$/i` — 36 characters,
dashes at positions 8, 13, 18, 23 and hex digits everywhere else. -/
def isUuid (s : String) : Bool :=
  s.length == 36 &&
  (List.range 36).all (fun i =>
    if i == 8 || i == 13 || i == 18 || i == 23 then s.data.getD i ' ' == '-'
    else isHexDigit (s.data.getD i ' '))

namespace Rev2

/-- Handler of `POST /api/submit-review` of the `part_002` revision (lines 224-276):
404 "User not found" for a missing account, 400 "User has already submitted
a review" when the flag is set, and otherwise +50 coins with the flag set,
the response echoing the updated row, and the cache entry deleted and
repopulated. -/
def submitReview (uid : Nat) (st : Store) : Resp × Store × List Evt :=
  if uid = 0 then (.err 400 "Missing user_id", st, [])
  else
    match findById st.users uid with
    | none => (.err 404 "User not found", st, [.storeRead])
    | some u =>
      if u.has_reviewed then
        (.err 400 "User has already submitted a review", st, [.storeRead])
      else
        (.okUser 200 (mkUserView
           { u with coins := u.coins + 50, has_reviewed := true }),
         { st with users := st.users.map (reviewBump uid) },
         [.storeRead, .storeWrite, .cacheDel ("user:" ++ toString uid),
          .cacheSet ("user:" ++ toString uid)])

/-- Handler of `POST /api/share-app` of the `part_002` revision (lines 279-354):
validates presence and the UUID shape of `share_id` (the numeric `user_id`
check is discharged by the `Nat` type here), 404s on a missing account,
rejects an already-recorded `(user_id, share_id)` pair with
400 "Share already recorded", and otherwise inserts the share row and
credits +10 coins / +1 `share_count` in one transaction, echoing the
updated row. -/
def shareApp (uid : Nat) (sid : String) (st : Store) : Resp × Store × List Evt :=
  if uid = 0 ∨ sid = "" then (.err 400 "Missing user_id or share_id", st, [])
  else if isUuid sid = false then (.err 400 "Invalid share_id format", st, [])
  else
    match findById st.users uid with
    | none => (.err 404 "User not found", st, [.storeRead])
    | some u =>
      if sharePairExists st.shares uid sid then
        (.err 400 "Share already recorded", st, [.storeRead, .storeRead])
      else
        (.okUser 200 (mkUserView
           { u with coins := u.coins + 10, share_count := u.share_count + 1 }),
         { st with shares := st.shares ++ [(uid, sid)],
                   users := st.users.map (shareBump uid) },
         [.storeRead, .storeRead, .storeWrite, .storeWrite, .commit])

end Rev2

/-- The `premium_active` flag as the read paths of `server.js` compute it:
`is_premium IS TRUE AND premium_expires_at > NOW()` (a NULL expiry makes the
comparison, and hence the CASE, false). -/
def premiumActive (u : Account) (now : Nat) : Bool :=
  u.is_premium && (match u.premium_expires_at with
    | some e => decide (now < e)
    | none => false)

/-- The `days_remaining` value of `GET /api/user/device/:device_id`:
`EXTRACT(days FROM (premium_expires_at - NOW()))` — the whole days of the
remaining interval — when the premium window is active, else 0. -/
def daysRemaining (u : Account) (now : Nat) : Nat :=
  if premiumActive u now then
    match u.premium_expires_at with
    | some e => (e - now) / 86400
    | none => 0
  else 0

/-- The JSON object `GET /api/user/:id` builds from a `users` row. -/
structure IdView where
  id : Nat
  device_id : String
  phone : Option String
  name : Option String
  coins : Int
  referral_code : String
  referral_url : String
  has_reviewed : Bool
  share_count : Nat
  is_premium : Bool
  premium_active : Bool
deriving Repr, DecidableEq

/-- The `userData` object of `GET /api/user/:id` (`server.js` lines 611-617). -/
def mkIdView (u : Account) (now : Nat) : IdView :=
  { id := u.id, device_id := u.device_id, phone := u.phone, name := u.name,
    coins := u.coins, referral_code := u.referral_code,
    referral_url := "bageshwardham://refer?ref=" ++ u.referral_code,
    has_reviewed := u.has_reviewed, share_count := u.share_count,
    is_premium := u.is_premium, premium_active := premiumActive u now }

/-- The row projection `GET /api/user/device/:device_id` returns and caches:
the selected `users` columns plus the computed `premium_active` and
`days_remaining`. -/
structure DeviceView where
  row : Account
  premium_active : Bool
  days_remaining : Nat
deriving Repr, DecidableEq

/-- The `userData` object of `GET /api/user/device/:device_id` (lines 368-387). -/
def mkDeviceView (u : Account) (now : Nat) : DeviceView :=
  { row := u, premium_active := premiumActive u now,
    days_remaining := daysRemaining u now }

/-- A cached value: the parsed JSON stored under a Redis key — a by-id user
object, a by-device projection, or a catalog page. -/
inductive CVal where
  | uview (v : IdView)
  | dview (v : DeviceView)
  | vlist (rows : List Video)
deriving Repr, DecidableEq

/-- The look-aside cache contents: key/value bindings.  `setEx` prepends a
binding and `get` returns the most recent one; the TTL arguments play no
role in any claim and are dropped. -/
abbrev CacheState := List (String × CVal)

/-- Cache lookup, `redisClient.get`. -/
def cget (c : CacheState) (k : String) : Option CVal :=
  (c.find? (fun p => p.1 == k)).map (fun p => p.2)

/-- Cache write, `redisClient.setEx` (TTL dropped). -/
def cset (c : CacheState) (k : String) (v : CVal) : CacheState := (k, v) :: c

namespace Server

/-- Handler of `GET /api/user/device/:device_id` (`server.js` lines 364-392): queries
the `users` row directly from the store — there is no cache lookup in this
handler — computes the premium projection, caches it under
`user_device:did` and returns it; 404 when the device has no row. -/
def getUserByDevice (did : String) (now : Nat) (c : CacheState) (st : Store) :
    Except (Nat × String) CVal × CacheState × List Evt :=
  match findByDevice st.users did with
  | none => (.error (404, "User not found"), c, [.storeRead])
  | some u =>
    let v : CVal := .dview (mkDeviceView u now)
    (.ok v, cset c ("user_device:" ++ did) v,
     [.storeRead, .cacheSet ("user_device:" ++ did)])

/-- Handler of `GET /api/user/:id` (`server.js` lines 594-624): checks the cache first
and returns the parsed cached JSON as-is on a hit; on a miss reads the row,
404s when absent, and otherwise caches the projection before returning
it. -/
def getUserById (uid : Nat) (now : Nat) (c : CacheState) (st : Store) :
    Except (Nat × String) CVal × CacheState × List Evt :=
  let key := "user:" ++ toString uid
  match cget c key with
  | some v => (.ok v, c, [.cacheGet key])
  | none =>
    match findById st.users uid with
    | none => (.error (404, "User not found"), c, [.cacheGet key, .storeRead])
    | some u =>
      let v : CVal := .uview (mkIdView u now)
      (.ok v, cset c key v, [.cacheGet key, .storeRead, .cacheSet key])

end Server

/-- The catalog query of `GET /api/videos`: optional section filter,
`ORDER BY created_at DESC`, then `OFFSET` and `LIMIT`. -/
def videosQuery (vids : List Video) (sec : Option String) (plim poff : Nat) :
    List Video :=
  let base : List Video := match sec with
    | some s => vids.filter (fun v => v.sect == s)
    | none => vids
  ((List.insertionSort (fun a b : Video => b.created_at ≤ a.created_at) base).drop
    poff).take plim

/-- The catalog cache key per distinct (section, parsed limit, parsed
offset) tuple: `videos:SECTION:LIMIT:OFFSET` with the limit clamped into
[1,100]. -/
def videosKey (sec : Option String) (lim off : Nat) : String :=
  "videos:" ++ sec.getD "all" ++ ":" ++ toString (max 1 (min 100 lim))
    ++ ":" ++ toString (max 0 off)

namespace Server

/-- Handler of `GET /api/videos` (`server.js` lines 505-527): clamps the limit into
[1,100], keys the cache per (section, limit, offset), returns the cached
page on a hit, and otherwise queries the catalog and caches the page before
returning it. -/
def getVideos (sec : Option String) (lim off : Nat) (c : CacheState)
    (st : Store) : CVal × CacheState × List Evt :=
  let plim := max 1 (min 100 lim)
  let poff := max 0 off
  let key := videosKey sec lim off
  match cget c key with
  | some v => (v, c, [.cacheGet key])
  | none =>
    let rows := videosQuery st.videos sec plim poff
    (.vlist rows, cset c key (.vlist rows),
     [.cacheGet key, .storeRead, .cacheSet key])

end Server

/-- Is the event a cache mutation (set or delete)? -/
def isCacheWrite : Evt → Bool
  | .cacheSet _ => true
  | .cacheDel _ => true
  | _ => false

/-- The ordering discipline the spec requires of every write path: in the
handler's event trace, no cache mutation occurs before the store
transaction's COMMIT (events from the first commit on are past the commit
point). -/
def cacheWritesAfterCommit : List Evt → Bool
  | [] => true
  | .commit :: _ => true
  | e :: rest => !isCacheWrite e && cacheWritesAfterCommit rest

/-- Sum of the (validated, non-negative) durations of a session flow. -/
def sumDur (pairs : List (String × Int)) : Nat :=
  (pairs.map (fun p => p.2.toNat)).sum

/-- Sequential session usage of one device: for each
`(session_id, duration)` pair, `POST /api/session/start` followed by
`POST /api/session/end` (wall-clock timestamps are irrelevant to the
analytics columns and fixed at 0). -/
def startEndFlow (did hex : String) : Store → List (String × Int) → Store
  | st, [] => st
  | st, (sid, d) :: rest =>
    let st1 := (Server.sessionStart did sid hex 0 st).2.1
    let st2 := (Server.sessionEnd did sid d 0 st1).2.1
    startEndFlow did hex st2 rest

/-- The account rows of a device, in table order. -/
def usersOf (st : Store) (did : String) : List Account :=
  st.users.filter (fun u => u.device_id == did)

/-- One externally triggered mutating operation, with all request fields and
environment inputs (current time, random draws) explicit.  `review2` and
`share2` are the `part_002` revision's reward handlers. -/
inductive Op where
  | profile (name phone did : String) (co : Option Nat) (rands : List Nat) (now : Nat)
  | register (did : String) (rc : Option String) (rands : List Nat)
  | review (uid : Nat)
  | share (uid : Nat) (sid : String)
  | review2 (uid : Nat)
  | share2 (uid : Nat) (sid : String)
  | sstart (did sid hex : String) (now : Nat)
  | send (did sid : String) (dur : Int) (now : Nat)
  | premium (did : String) (now : Nat)

/-- The store transition of one operation.  An operation whose referral-code
generation loop does not terminate never commits, so it leaves the store
unchanged. -/
def applyOp (st : Store) : Op → Store
  | .profile n p d co r now =>
      match Server.profile n p d co r now st with
      | some res => res.2.1
      | none => st
  | .register d rc r =>
      match Server.registerDevice d rc r st with
      | some res => res.2.1
      | none => st
  | .review uid => (Server.submitReview uid st).2.1
  | .share uid sid => (Server.shareApp uid sid st).2.1
  | .review2 uid => (Rev2.submitReview uid st).2.1
  | .share2 uid sid => (Rev2.shareApp uid sid st).2.1
  | .sstart d s h now => (Server.sessionStart d s h now st).2.1
  | .send d s dur now => (Server.sessionEnd d s dur now st).2.1
  | .premium d now => (Server.activatePremium d now st).2.1

/-- The store reached by a sequence of operations from the empty initial
store. -/
def runOps (ops : List Op) : Store := ops.foldl applyOp Store.init

/-- Every account balance in the store is non-negative. -/
def coinsOK (st : Store) : Bool := st.users.all (fun u => decide (0 ≤ u.coins))

/-- The running average the spec's testable property asserts, following its
words: `max(1, (sum of the durations ended so far) / (number of sessions
ended so far))`. -/
def specAvg (durs : List Nat) : Nat := max 1 (durs.sum / durs.length)

/-! ### Shared list lemmas about the row-level SQL semantics -/

/-- A guarded per-row UPDATE leaves the table untouched when no row
matches. -/
theorem map_noop (l : List Account) (f : Account → Account)
    (h : ∀ u ∈ l, f u = u) : l.map f = l := by
  induction l with
  | nil => rfl
  | cons a t ih =>
    have ha := h a (List.mem_cons_self a t)
    have ht := ih (fun u hu => h u (List.mem_cons_of_mem a hu))
    simp [ha, ht]

/-- Filtering a device's rows commutes with a per-row UPDATE guarded by the
same device, when the update preserves the device id. -/
theorem usersOf_map_guard (l : List Account) (did : String)
    (g : Account → Account) (hg : ∀ u, (g u).device_id = u.device_id) :
    (l.map (fun u => if u.device_id == did then g u else u)).filter
        (fun u => u.device_id == did)
      = (l.filter (fun u => u.device_id == did)).map g := by
  induction l with
  | nil => rfl
  | cons a t ih =>
    by_cases h : a.device_id = did
    · have hgd : (g a).device_id = did := by rw [hg]; exact h
      simp [h, hgd] at ih ⊢
      exact ih
    · simp [h] at ih ⊢
      exact ih

/-- Finding a row by id commutes with a per-row UPDATE guarded by the same
id, when the update preserves the id. -/
theorem findById_map_guard (l : List Account) (uid : Nat)
    (g : Account → Account) (hg : ∀ u, (g u).id = u.id) :
    findById (l.map (fun v => if v.id == uid then g v else v)) uid
      = (findById l uid).map (fun v => if v.id == uid then g v else v) := by
  induction l with
  | nil => rfl
  | cons a t ih =>
    by_cases h : a.id = uid
    · simp [findById, h, hg]
    · simp only [findById, List.map_cons] at *
      rw [List.find?_cons_of_neg, List.find?_cons_of_neg]
      · exact ih
      · simp [h]
      · simp [h, hg]

/-- Running `any` over a mapped table is `any` of the original when the map does not
change the tested column. -/
theorem any_map_eq (l : List Account) (g : Account → Account)
    (p : Account → Bool) (h : ∀ u, p (g u) = p u) :
    (l.map g).any p = l.any p := by
  induction l with
  | nil => rfl
  | cons a t ih => simp [h, ih]

/-- The referral-code generation loop only reads the `referral_code` column,
so it is unaffected by an UPDATE that preserves that column. -/
theorem generateReferralCode_map_eq (l : List Account) (g : Account → Account)
    (rands : List Nat) (hg : ∀ u, (g u).referral_code = u.referral_code) :
    generateReferralCode (l.map g) rands = generateReferralCode l rands := by
  induction rands with
  | nil => rfl
  | cons n rest ih =>
    simp only [generateReferralCode]
    rw [any_map_eq l g _ (fun u => by simp [hg])]
    split <;> simp [ih]

/-- The id column of a table is unaffected by an UPDATE that preserves
it. -/
theorem ids_map (l : List Account) (g : Account → Account)
    (hg : ∀ u, (g u).id = u.id) :
    (l.map g).map (fun u => u.id) = l.map (fun u => u.id) := by
  induction l with
  | nil => rfl
  | cons a t ih => simp [hg, ih]

/-- The SERIAL id for the next INSERT is unaffected by an UPDATE that
preserves the id column. -/
theorem nextId_map (l : List Account) (g : Account → Account)
    (hg : ∀ u, (g u).id = u.id) : nextId (l.map g) = nextId l := by
  unfold nextId
  rw [ids_map l g hg]

/-! ### C7 — registerDevice is idempotent for an already registered device -/

/-- C7: for every device_id that is already registered, `registerDevice`
(POST /api/register-device) is idempotent: it returns the existing account
and changes no stored state — no coins are credited to any account and no
new row is created, regardless of any referral_code supplied.  (The returned
store is the input store itself; the only effects are the COMMIT of the
read-only transaction and a cache refresh of the response object.) -/
theorem registerDevice_idempotent (st : Store) (did : String)
    (rc : Option String) (rands : List Nat) (u : Account)
    (hd : did ≠ "") (hu : findByDevice st.users did = some u) :
    Server.registerDevice did rc rands st =
      some (.okUser 200 (mkUserView u), st,
        [.storeRead, .commit, .cacheSet ("user:" ++ toString u.id)]) := by
  unfold Server.registerDevice
  simp [hd, hu]

/-- The concrete account of the C7 witness. -/
def uW7 : Account :=
  { id := 1, device_id := "d1", coins := 3, referral_code := "BGSHWR111111" }

/-- The concrete store of the C7 witness. -/
def stW7 : Store := { users := [uW7] }

/-- Witness for C7: a registered device, re-registered while even supplying
the referral code of an existing account, is echoed back with the store
untouched. -/
theorem registerDevice_idempotent_witness :
    Server.registerDevice "d1" (some "BGSHWR111111") [5] stW7 =
      some (.okUser 200 (mkUserView uW7), stW7,
        [.storeRead, .commit, .cacheSet "user:1"]) := by
  have h := registerDevice_idempotent stW7 "d1" (some "BGSHWR111111") [5] uW7
    (by decide) (by rfl)
  simpa using h

/-! ### C10 — the account auto-created by session-start -/

/-- C10: a `startSession` call for a device with no account auto-creates, in
the same transaction, an account with `coins = 0`, `app_opens = 1` and a
referral code of the form `FREE_` followed by the 8 hex characters of
`substr(md5(random()::text), 1, 8)` — produced without the collision-checked
`generateReferralCode` loop: the store is arbitrary here, with no hypothesis
relating `hex` to the referral codes already present, so the insert happens
even when another account already carries the very same code. -/
theorem sessionStart_autocreates (st : Store) (did sid hex : String)
    (now : Nat) (hd : did ≠ "") (hs : sid ≠ "")
    (hnew : ∀ u ∈ st.users, u.device_id ≠ did)
    (hlen : hex.length = 8) (hhex : hex.data.all isHexDigit = true) :
    ∃ newU : Account,
      Server.sessionStart did sid hex now st =
        (.ok 200,
         { st with
             sessions := st.sessions ++
               [{ device_id := did, session_id := sid, start_time := now,
                  session_duration := 0 }],
             users := st.users ++ [newU] },
         [.storeWrite, .storeWrite, .storeWrite, .commit]) ∧
      newU.coins = 0 ∧ newU.app_opens = 1 ∧
      (∃ h8, newU.referral_code = "FREE_" ++ h8 ∧ h8.length = 8 ∧
        h8.data.all isHexDigit = true) := by
  have hmap : st.users.map (startBump did now) = st.users := by
    apply map_noop
    intro u hu
    simp [startBump, hnew u hu]
  have hfilter : (st.users.filter (fun u => u.device_id == did)).length = 0 := by
    rw [List.length_eq_zero, List.filter_eq_nil_iff]
    intro u hu
    simp [hnew u hu]
  refine ⟨{ id := nextId st.users, device_id := did, coins := 0,
            referral_code := "FREE_" ++ hex, app_opens := 1,
            last_active := now }, ?_, rfl, rfl, ⟨hex, rfl, hlen, hhex⟩⟩
  unfold Server.sessionStart
  simp only [hd, hs, hmap, hfilter, if_false, if_true]
  simp [hmap, hfilter, hd, hs]

/-- The concrete store of the C10 witness: it already holds an account whose
referral code is exactly `FREE_deadbeef`. -/
def stW10 : Store :=
  { users := [{ id := 1, device_id := "dOld", coins := 2,
                referral_code := "FREE_deadbeef" }] }

/-- Witness for C10: session-start for an unseen device drawing the same hex
as an existing `FREE_` code still inserts a second account carrying that
code — there is no uniqueness check. -/
theorem sessionStart_autocreates_witness :
    ∃ newU : Account,
      Server.sessionStart "dNew" "s1" "deadbeef" 7 stW10 =
        (.ok 200,
         { stW10 with
             sessions := [{ device_id := "dNew", session_id := "s1",
                            start_time := 7, session_duration := 0 }],
             users := stW10.users ++ [newU] },
         [.storeWrite, .storeWrite, .storeWrite, .commit]) ∧
      newU.coins = 0 ∧ newU.app_opens = 1 ∧
      (∃ h8, newU.referral_code = "FREE_" ++ h8 ∧ h8.length = 8 ∧
        h8.data.all isHexDigit = true) := by
  have h := sessionStart_autocreates stW10 "dNew" "s1" "deadbeef" 7
    (by decide) (by decide)
    (by intro u hu; simp [stW10] at hu; subst hu; decide)
    (by decide) (by decide)
  simpa [stW10] using h

/-! ### C6 — referral crediting at device registration -/

/-- C6: registering an unseen device with a supplied referral code.  If the
code resolves to an existing account, every row carrying that code — by the
uniqueness invariant, the one referrer — is credited exactly +10 coins, and
the new account is created with `referred_by` set to that code (and starts
at 10 coins in this revision).  If the code resolves to nothing, no error is
raised: the device is still registered with `referred_by` null, starting at
0 coins, and every existing account is left unchanged. -/
theorem registerDevice_referral (st : Store) (did code nc : String)
    (rands : List Nat) (hd : did ≠ "")
    (hnew : findByDevice st.users did = none)
    (hgen : generateReferralCode st.users rands = some nc) :
    (st.users.any (fun u => u.referral_code == code) = true →
      Server.registerDevice did (some code) rands st =
        some (.okUser 201 (mkUserView (regAcct did 10 (some code) nc (nextId st.users))),
          { st with users := st.users.map (refBump code)
              ++ [regAcct did 10 (some code) nc (nextId st.users)] },
          [.storeRead, .storeRead, .storeWrite, .storeRead, .storeWrite,
           .commit, .cacheSet ("user:" ++ toString (nextId st.users))])) ∧
    (st.users.any (fun u => u.referral_code == code) = false →
      Server.registerDevice did (some code) rands st =
        some (.okUser 201 (mkUserView (regAcct did 0 none nc (nextId st.users))),
          { st with users := st.users ++ [regAcct did 0 none nc (nextId st.users)] },
          [.storeRead, .storeRead, .storeRead, .storeWrite, .commit,
           .cacheSet ("user:" ++ toString (nextId st.users))])) := by
  have hb : ∀ u : Account, (refBump code u).referral_code = u.referral_code := by
    intro u; unfold refBump; split <;> rfl
  have hid : ∀ u : Account, (refBump code u).id = u.id := by
    intro u; unfold refBump; split <;> rfl
  have hgen2 : generateReferralCode (st.users.map (refBump code)) rands = some nc := by
    rw [generateReferralCode_map_eq st.users (refBump code) rands hb]; exact hgen
  have hnid : nextId (st.users.map (refBump code)) = nextId st.users :=
    nextId_map st.users (refBump code) hid
  constructor
  · intro hhit
    unfold Server.registerDevice Server.finishRegister
    simp only [hd, if_false, hnew, hhit, if_true]
    rw [hgen2, hnid]
    simp [regAcct]
  · intro hmiss
    unfold Server.registerDevice Server.finishRegister
    simp only [hd, if_false, hnew, hmiss]
    rw [hgen]
    simp [regAcct]

/-- The concrete store of the C6 witness: one account — the referrer — with
referral code `BGSHWR123456` and 0 coins. -/
def stW6 : Store :=
  { users := [{ id := 1, device_id := "dR", coins := 0,
                referral_code := "BGSHWR123456" }] }

/-- Witness for C6 (resolving case): registering a fresh device with the
referrer's code credits the referrer +10 and creates the new account with
`referred_by` set. -/
theorem registerDevice_referral_witness :
    Server.registerDevice "d2" (some "BGSHWR123456") [111111] stW6 =
      some (.okUser 201 (mkUserView
              (regAcct "d2" 10 (some "BGSHWR123456") "BGSHWR111111"
                (nextId stW6.users))),
        { stW6 with users := stW6.users.map (refBump "BGSHWR123456")
            ++ [regAcct "d2" 10 (some "BGSHWR123456") "BGSHWR111111"
                  (nextId stW6.users)] },
        [.storeRead, .storeRead, .storeWrite, .storeRead, .storeWrite,
         .commit, .cacheSet ("user:" ++ toString (nextId stW6.users))]) :=
  (registerDevice_referral stW6 "d2" "BGSHWR123456" "BGSHWR111111" [111111]
    (by decide) (by rfl) (by rfl)).1 (by rfl)

/-! ### C2 — submit-review error channels -/

/-- Counterexample to C2 as stated: in `server.js`, `POST /api/submit-review`
for a missing account does NOT fail with a 404 NotFound — it returns exactly
the same 400 "Invalid request" response as the already-reviewed case, so the
two failure cases are not distinct errors.  Concretely, with only account
id 1 (already reviewed) in the store, reviewing id 2 (no such account) and
reviewing id 1 produce identical responses. -/
theorem submitReview_errors_not_distinct :
    (Server.submitReview 2
        { users := [{ id := 1, device_id := "dA", coins := 7,
                      referral_code := "BGSHWR000001",
                      has_reviewed := true }] }).1
      = .err 400 "Invalid request" ∧
    (Server.submitReview 1
        { users := [{ id := 1, device_id := "dA", coins := 7,
                      referral_code := "BGSHWR000001",
                      has_reviewed := true }] }).1
      = .err 400 "Invalid request" ∧
    (Server.submitReview 2
        { users := [{ id := 1, device_id := "dA", coins := 7,
                      referral_code := "BGSHWR000001",
                      has_reviewed := true }] }).1
      ≠ .err 404 "User not found" := by
  refine ⟨rfl, rfl, ?_⟩
  decide

/-- C2 amended: in the `part_002` revision the claim holds as stated — a
missing account fails with 404 "User not found", an already-reviewed account
fails with the distinct 400 "User has already submitted a review", neither
failure changes any state, and success adds exactly 50 coins and sets the
flag.  In the `server.js` revision the success and state-preservation parts
hold identically, but both failure cases collapse into one 400 "Invalid
request" response (no 404, not distinct). -/
theorem submitReview_amended (st : Store) (uid : Nat) (hu : uid ≠ 0) :
    (findById st.users uid = none →
       Rev2.submitReview uid st = (.err 404 "User not found", st, [.storeRead]) ∧
       Server.submitReview uid st
         = (.err 400 "Invalid request", st, [.storeRead, .rollback])) ∧
    (∀ u, findById st.users uid = some u → u.has_reviewed = true →
       Rev2.submitReview uid st
         = (.err 400 "User has already submitted a review", st, [.storeRead]) ∧
       Server.submitReview uid st
         = (.err 400 "Invalid request", st, [.storeRead, .rollback])) ∧
    (∀ u, findById st.users uid = some u → u.has_reviewed = false →
       Rev2.submitReview uid st
         = (.okUser 200 (mkUserView
              { u with coins := u.coins + 50, has_reviewed := true }),
            { st with users := st.users.map (reviewBump uid) },
            [.storeRead, .storeWrite, .cacheDel ("user:" ++ toString uid),
             .cacheSet ("user:" ++ toString uid)]) ∧
       Server.submitReview uid st
         = (.ok 200, { st with users := st.users.map (reviewBump uid) },
            [.storeRead, .storeWrite, .commit,
             .cacheDel ("user:" ++ toString uid)])) := by
  refine ⟨?_, ?_, ?_⟩
  · intro hnone
    unfold Rev2.submitReview Server.submitReview
    simp [hu, hnone]
  · intro u hfind hrev
    unfold Rev2.submitReview Server.submitReview
    simp [hu, hfind, hrev]
  · intro u hfind hrev
    unfold Rev2.submitReview Server.submitReview
    simp [hu, hfind, hrev]

/-- The concrete store of the C2 witness: account id 4 not yet reviewed. -/
def stW2 : Store :=
  { users := [{ id := 4, device_id := "dB", coins := 1,
                referral_code := "BGSHWR000009", has_reviewed := false }] }

/-- Witness for C2 amended (success case): reviewing account 4 credits +50
and sets the flag, in both revisions. -/
theorem submitReview_amended_witness :
    Rev2.submitReview 4 stW2
      = (.okUser 200 (mkUserView
           { id := 4, device_id := "dB", coins := 51,
             referral_code := "BGSHWR000009", has_reviewed := true }),
         { stW2 with users := stW2.users.map (reviewBump 4) },
         [.storeRead, .storeWrite, .cacheDel "user:4", .cacheSet "user:4"]) ∧
    Server.submitReview 4 stW2
      = (.ok 200, { stW2 with users := stW2.users.map (reviewBump 4) },
         [.storeRead, .storeWrite, .commit, .cacheDel "user:4"]) := by
  have h := (submitReview_amended stW2 4 (by decide)).2.2
    { id := 4, device_id := "dB", coins := 1,
      referral_code := "BGSHWR000009", has_reviewed := false }
    (by rfl) (by rfl)
  simpa using h

/-! ### C1 — share-app idempotency -/

/-- Finding a row by id commutes with the share-credit UPDATE. -/
theorem findById_map_shareBump (l : List Account) (uid : Nat) :
    findById (l.map (shareBump uid)) uid
      = (findById l uid).map (shareBump uid) :=
  findById_map_guard l uid
    (fun v => { v with coins := v.coins + 10,
                       share_count := v.share_count + 1 })
    (fun _ => rfl)

/-- A `part_002` share call on a store already holding the pair is rejected
with the DuplicateShare error and does not touch the store. -/
theorem rev2ShareApp_dup (st : Store) (uid : Nat) (sid : String) (w : Account)
    (hu : uid ≠ 0) (hs : sid ≠ "") (hsid : isUuid sid = true)
    (hfind : findById st.users uid = some w)
    (hdup : sharePairExists st.shares uid sid = true) :
    Rev2.shareApp uid sid st
      = (.err 400 "Share already recorded", st, [.storeRead, .storeRead]) := by
  unfold Rev2.shareApp
  simp [hu, hs, hsid, hfind, hdup]

/-- A `server.js` share call on a store already holding the pair hits the
uniqueness constraint, rolls back and returns the generic 500. -/
theorem serverShareApp_dup (st : Store) (uid : Nat) (sid : String)
    (hu : uid ≠ 0) (hs : sid ≠ "")
    (hdup : sharePairExists st.shares uid sid = true) :
    Server.shareApp uid sid st
      = (.err 500 "Share failed", st, [.storeWrite, .rollback]) := by
  unfold Server.shareApp
  simp [hu, hs, hdup]

/-- C1 amended: when the (account, share) pair is not yet recorded, the
first awardShare call credits +10 coins / +1 share_count and records the
pair; a second call with the same pair leaves coins and share_count exactly
as after the first call in both revisions — but only the `part_002` revision
returns the DuplicateShare rejection (400 "Share already recorded"); the
`server.js` revision has no duplicate check of its own, so its second call
is rejected by the shares-table uniqueness constraint, rolled back, and
surfaces as the generic 500 "Share failed" rather than DuplicateShare. -/
theorem shareApp_amended (st : Store) (uid : Nat) (sid : String) (u : Account)
    (hu : uid ≠ 0) (hsid : isUuid sid = true)
    (hfind : findById st.users uid = some u)
    (hdup : sharePairExists st.shares uid sid = false) :
    (Rev2.shareApp uid sid st
       = (.okUser 200 (mkUserView
            { u with coins := u.coins + 10,
                     share_count := u.share_count + 1 }),
          { st with shares := st.shares ++ [(uid, sid)],
                    users := st.users.map (shareBump uid) },
          [.storeRead, .storeRead, .storeWrite, .storeWrite, .commit]) ∧
     Rev2.shareApp uid sid (Rev2.shareApp uid sid st).2.1
       = (.err 400 "Share already recorded",
          (Rev2.shareApp uid sid st).2.1, [.storeRead, .storeRead])) ∧
    (Server.shareApp uid sid st
       = (.ok 200,
          { st with shares := st.shares ++ [(uid, sid)],
                    users := st.users.map (shareBump uid) },
          [.storeWrite, .storeWrite, .commit]) ∧
     Server.shareApp uid sid (Server.shareApp uid sid st).2.1
       = (.err 500 "Share failed",
          (Server.shareApp uid sid st).2.1, [.storeWrite, .rollback])) := by
  have hs : sid ≠ "" := by
    intro h
    rw [h] at hsid
    exact absurd hsid (by decide)
  have hfirst2 : Rev2.shareApp uid sid st
      = (.okUser 200 (mkUserView
           { u with coins := u.coins + 10,
                    share_count := u.share_count + 1 }),
         { st with shares := st.shares ++ [(uid, sid)],
                   users := st.users.map (shareBump uid) },
         [.storeRead, .storeRead, .storeWrite, .storeWrite, .commit]) := by
    unfold Rev2.shareApp
    simp [hu, hs, hsid, hfind, hdup]
  have hfirst1 : Server.shareApp uid sid st
      = (.ok 200,
         { st with shares := st.shares ++ [(uid, sid)],
                   users := st.users.map (shareBump uid) },
         [.storeWrite, .storeWrite, .commit]) := by
    unfold Server.shareApp
    simp [hu, hs, hdup]
  refine ⟨⟨hfirst2, ?_⟩, hfirst1, ?_⟩
  · rw [hfirst2]
    apply rev2ShareApp_dup _ _ _ (shareBump uid u) hu hs hsid
    · show findById (st.users.map (shareBump uid)) uid = _
      rw [findById_map_shareBump, hfind]
      rfl
    · show sharePairExists (st.shares ++ [(uid, sid)]) uid sid = true
      simp [sharePairExists]
  · rw [hfirst1]
    apply serverShareApp_dup _ _ _ hu hs
    show sharePairExists (st.shares ++ [(uid, sid)]) uid sid = true
    simp [sharePairExists]

/-- The concrete store of the C1 counterexample / witness scenario. -/
def stC1 : Store :=
  { users := [{ id := 1, device_id := "dC", coins := 0,
                referral_code := "BGSHWR000002" }] }

/-- A canonical UUID share token. -/
def sidC1 : String := "0f0f0f0f-0000-1111-2222-333333333333"

/-- Counterexample to C1 as stated: in `server.js` the second share call
with the same (account, share) pair does not return DuplicateShare — it
returns the generic 500 "Share failed" (the spec's error table files
duplicate shares under 400 DuplicateShare, and the explicit rejection of the
`part_002` revision is 400 "Share already recorded").  The store — coins and
share_count included — is indeed unchanged by the second call. -/
theorem shareApp_counterexample :
    (Server.shareApp 1 sidC1 (Server.shareApp 1 sidC1 stC1).2.1).1
        = .err 500 "Share failed" ∧
    (Server.shareApp 1 sidC1 (Server.shareApp 1 sidC1 stC1).2.1).1
        ≠ .err 400 "Share already recorded" ∧
    (Server.shareApp 1 sidC1 (Server.shareApp 1 sidC1 stC1).2.1).2.1
        = (Server.shareApp 1 sidC1 stC1).2.1 := by
  refine ⟨rfl, by decide, rfl⟩

/-- Witness for C1 amended: the two-call scenario on the concrete store. -/
theorem shareApp_amended_witness :
    Rev2.shareApp 1 sidC1 (Rev2.shareApp 1 sidC1 stC1).2.1
      = (.err 400 "Share already recorded",
         (Rev2.shareApp 1 sidC1 stC1).2.1, [.storeRead, .storeRead]) ∧
    Rev2.shareApp 1 sidC1 stC1
      = (.okUser 200 (mkUserView
           { id := 1, device_id := "dC", coins := 10,
             referral_code := "BGSHWR000002", share_count := 1 }),
         { stC1 with shares := [(1, sidC1)],
                     users := stC1.users.map (shareBump 1) },
         [.storeRead, .storeRead, .storeWrite, .storeWrite, .commit]) := by
  have h := shareApp_amended stC1 1 sidC1
    { id := 1, device_id := "dC", coins := 0,
      referral_code := "BGSHWR000002" }
    (by decide) (by decide) (by rfl) (by rfl)
  exact ⟨h.1.2, by simpa [stC1] using h.1.1⟩

/-! ### C5 — which sessions endSession will end -/

/-- The concrete store of the C5 counterexample: the only session of the
pair (dD, s1) is already ended. -/
def stC5 : Store :=
  { users := [{ id := 1, device_id := "dD", referral_code := "BGSHWR000003",
                app_opens := 2, total_session_duration := 5 }],
    sessions := [{ device_id := "dD", session_id := "s1", start_time := 0,
                   end_time := some 5, session_duration := 5 }] }

/-- Counterexample to C5 as stated: no open session (with `end_time` null)
exists for (dD, s1) — every session in the store is already ended — yet
`endSession` does not fail with NotFound: it succeeds and overwrites the
closed session's duration and end time, because the existence check of
`server.js` (lines 249-252) does not filter on `end_time IS NULL`.  A
session already ended CAN be ended again. -/
theorem sessionEnd_counterexample :
    stC5.sessions.all (fun s => s.end_time != none) = true ∧
    (Server.sessionEnd "dD" "s1" 7 9 stC5).1 = .ok 200 ∧
    (Server.sessionEnd "dD" "s1" 7 9 stC5).2.1.sessions
      = [{ device_id := "dD", session_id := "s1", start_time := 0,
           end_time := some 9, session_duration := 7 }] := by
  refine ⟨rfl, rfl, rfl⟩

/-- C5 amended: `endSession` fails with 404 "Session not found" exactly when
no session row — open or already ended — exists for the exact
(device_id, session_id) pair (in that case the store is untouched); when any
matching row exists, whatever its `end_time`, the call succeeds and sets
`end_time = now` and `session_duration = duration` on every matching row.
In particular a session already ended can be ended again. -/
theorem sessionEnd_amended (st : Store) (did sid : String) (dur : Int)
    (now : Nat) (hd : did ≠ "") (hs : sid ≠ "") (hdur : 0 ≤ dur) :
    (st.sessions.any (fun s => s.session_id == sid && s.device_id == did) = false →
       Server.sessionEnd did sid dur now st
         = (.err 404 "Session not found", st, [.storeRead, .rollback])) ∧
    (st.sessions.any (fun s => s.session_id == sid && s.device_id == did) = true →
       (Server.sessionEnd did sid dur now st).1 = .ok 200 ∧
       (Server.sessionEnd did sid dur now st).2.1.sessions
         = st.sessions.map (endSessRow sid did dur.toNat now) ∧
       ∀ s ∈ st.sessions, s.session_id = sid → s.device_id = did →
         { s with session_duration := dur.toNat, end_time := some now }
           ∈ (Server.sessionEnd did sid dur now st).2.1.sessions) := by
  have hneg : ¬ dur < 0 := not_lt.mpr hdur
  constructor
  · intro hnone
    unfold Server.sessionEnd
    simp [hd, hs, hneg, hnone]
  · intro hsome
    have hrun : Server.sessionEnd did sid dur now st
        = (.ok 200,
           { st with
               sessions := st.sessions.map (endSessRow sid did dur.toNat now),
               users := st.users.map (endBump did dur.toNat now) },
           [.storeRead, .storeWrite, .storeWrite, .commit,
            .cacheDel ("session:" ++ sid),
            .cacheDel ("user_device:" ++ did)]) := by
      unfold Server.sessionEnd
      simp [hd, hs, hneg, hsome]
    rw [hrun]
    refine ⟨rfl, rfl, ?_⟩
    intro s hmem hsid2 hdid2
    have he : endSessRow sid did dur.toNat now s
        = { s with session_duration := dur.toNat, end_time := some now } := by
      unfold endSessRow
      simp [hsid2, hdid2]
    show _ ∈ st.sessions.map (endSessRow sid did dur.toNat now)
    rw [← he]
    exact List.mem_map_of_mem _ hmem

/-- The concrete store of the C5 witness: one open session for (dE, s9). -/
def stW5 : Store :=
  { users := [{ id := 1, device_id := "dE",
                referral_code := "BGSHWR000007" }],
    sessions := [{ device_id := "dE", session_id := "s9", start_time := 1 }] }

/-- Witness for C5 amended: ending the open session (dE, s9) with duration
120 succeeds and stamps the row. -/
theorem sessionEnd_amended_witness :
    (Server.sessionEnd "dE" "s9" 120 130 stW5).1 = .ok 200 ∧
    (Server.sessionEnd "dE" "s9" 120 130 stW5).2.1.sessions
      = stW5.sessions.map (endSessRow "s9" "dE" 120 130) := by
  have h := (sessionEnd_amended stW5 "dE" "s9" 120 130
    (by decide) (by decide) (by decide)).2 (by rfl)
  exact ⟨h.1, h.2.1⟩

/-! ### C4 — cache refresh only after commit -/

/-- The concrete store of the C4 counterexample: the device dF already has
a profile. -/
def stC4 : Store :=
  { users := [{ id := 1, device_id := "dF", phone := some "1112223334",
                name := some "Old", coins := 5,
                referral_code := "BGSHWR000004" }] }

/-- Counterexample to C4 as stated: `POST /api/profile` on an existing
device deletes and rewrites the device's cache entry BEFORE issuing COMMIT
(`server.js` lines 418-421 run before line 421's COMMIT), so its event
trace violates the store-commit-before-cache-refresh discipline: the cache
briefly holds a value written from an uncommitted transaction. -/
theorem profile_caches_before_commit :
    (Server.profile "New" "1112223334" "dF" none [] 5 stC4).map
        (fun r => cacheWritesAfterCommit r.2.2) = some false := by
  rfl

/-- C4 amended: every mutating `server.js` handler EXCEPT
`POST /api/profile` refreshes or invalidates cache entries only after its
transaction's COMMIT (session start and end, register-device,
submit-review, share-app, activate-premium — for every input and store);
the profile handler instead deletes and rewrites the cache entry before
COMMIT in its existing-device branch and writes it before COMMIT in its
new-device branch. -/
theorem cache_discipline_amended :
    (∀ did sid hex now st,
      cacheWritesAfterCommit (Server.sessionStart did sid hex now st).2.2 = true) ∧
    (∀ did sid dur now st,
      cacheWritesAfterCommit (Server.sessionEnd did sid dur now st).2.2 = true) ∧
    (∀ did rc rands st r, Server.registerDevice did rc rands st = some r →
      cacheWritesAfterCommit r.2.2 = true) ∧
    (∀ uid st,
      cacheWritesAfterCommit (Server.submitReview uid st).2.2 = true) ∧
    (∀ uid sid st,
      cacheWritesAfterCommit (Server.shareApp uid sid st).2.2 = true) ∧
    (∀ did now st,
      cacheWritesAfterCommit (Server.activatePremium did now st).2.2 = true) := by
  refine ⟨?_, ?_, ?_, ?_, ?_, ?_⟩
  · intro did sid hex now st
    unfold Server.sessionStart
    dsimp only
    split
    · rfl
    · split <;> rfl
  · intro did sid dur now st
    unfold Server.sessionEnd
    dsimp only
    split
    · rfl
    · split <;> rfl
  · intro did rc rands st r hr
    unfold Server.registerDevice Server.finishRegister at hr
    dsimp only at hr
    repeat' split at hr
    all_goals first
      | (cases hr; rfl)
      | cases hr
  · intro uid st
    unfold Server.submitReview
    split
    · rfl
    · split
      · rfl
      · split <;> rfl
  · intro uid sid st
    unfold Server.shareApp
    split
    · rfl
    · split <;> rfl
  · intro did now st
    unfold Server.activatePremium
    dsimp only
    split
    · rfl
    · split <;> rfl

/-- Witness for C4 amended: a concrete register-device call (a handler with
a hypothesis in the amended statement) satisfies the discipline. -/
theorem cache_discipline_amended_witness :
    ∃ r, Server.registerDevice "d9" none [111111] Store.init = some r ∧
      cacheWritesAfterCommit r.2.2 = true :=
  ⟨_, rfl, cache_discipline_amended.2.2.1 "d9" none [111111] Store.init _ rfl⟩

/-! ### C8 — the look-aside read discipline -/

/-- Does the trace contain any cache lookup? -/
def hasCacheGet (evts : List Evt) : Bool :=
  evts.any (fun e => match e with | .cacheGet _ => true | _ => false)

/-- The account of the C8 counterexample. -/
def uC8 : Account :=
  { id := 3, device_id := "dG", coins := 0, referral_code := "BGSHWR000005" }

/-- A stale cached projection of dG showing 99 coins. -/
def staleC8 : CVal := .dview (mkDeviceView { uC8 with coins := 99 } 0)

/-- Counterexample to C8 as stated: `GET /api/user/device/:device_id`
(`server.js` lines 364-392) does not check the cache: with an entry present
under its key, its trace contains no cache lookup and it returns the fresh
store projection rather than the cached value. -/
theorem device_lookup_ignores_cache :
    cget [("user_device:dG", staleC8)] "user_device:dG" = some staleC8 ∧
    (Server.getUserByDevice "dG" 0 [("user_device:dG", staleC8)]
        { users := [uC8] }).1 = .ok (.dview (mkDeviceView uC8 0)) ∧
    (CVal.dview (mkDeviceView uC8 0)) ≠ staleC8 ∧
    hasCacheGet (Server.getUserByDevice "dG" 0 [("user_device:dG", staleC8)]
        { users := [uC8] }).2.2 = false := by
  refine ⟨rfl, rfl, by decide, rfl⟩

/-- C8 amended: `GET /api/user/:id` and `GET /api/videos` do follow the
look-aside discipline as claimed — cache checked first, the cached value
returned verbatim on a hit with no store access, and on a miss the store
read and the cache populated with the returned value before returning.
`GET /api/user/device/:device_id` does not: it never consults the cache (no
cache lookup in its trace; its response does not depend on the cache
contents) and always reads the store — though it still populates the cache
with the value it returns. -/
theorem read_paths_amended :
    (∀ uid now c st v, cget c ("user:" ++ toString uid) = some v →
       Server.getUserById uid now c st
         = (.ok v, c, [.cacheGet ("user:" ++ toString uid)])) ∧
    (∀ uid now c st u, cget c ("user:" ++ toString uid) = none →
       findById st.users uid = some u →
       Server.getUserById uid now c st
         = (.ok (.uview (mkIdView u now)),
            cset c ("user:" ++ toString uid) (.uview (mkIdView u now)),
            [.cacheGet ("user:" ++ toString uid), .storeRead,
             .cacheSet ("user:" ++ toString uid)])) ∧
    (∀ sec lim off c st v, cget c (videosKey sec lim off) = some v →
       Server.getVideos sec lim off c st
         = (v, c, [.cacheGet (videosKey sec lim off)])) ∧
    (∀ sec lim off c st, cget c (videosKey sec lim off) = none →
       Server.getVideos sec lim off c st
         = (.vlist (videosQuery st.videos sec (max 1 (min 100 lim)) (max 0 off)),
            cset c (videosKey sec lim off)
              (.vlist (videosQuery st.videos sec (max 1 (min 100 lim)) (max 0 off))),
            [.cacheGet (videosKey sec lim off), .storeRead,
             .cacheSet (videosKey sec lim off)])) ∧
    (∀ did now c st,
       hasCacheGet (Server.getUserByDevice did now c st).2.2 = false ∧
       (Server.getUserByDevice did now c st).1
         = (Server.getUserByDevice did now [] st).1) ∧
    (∀ did now c st u, findByDevice st.users did = some u →
       Server.getUserByDevice did now c st
         = (.ok (.dview (mkDeviceView u now)),
            cset c ("user_device:" ++ did) (.dview (mkDeviceView u now)),
            [.storeRead, .cacheSet ("user_device:" ++ did)])) := by
  refine ⟨?_, ?_, ?_, ?_, ?_, ?_⟩
  · intro uid now c st v hv
    unfold Server.getUserById
    simp [hv]
  · intro uid now c st u hmiss hfind
    unfold Server.getUserById
    simp [hmiss, hfind]
  · intro sec lim off c st v hv
    unfold Server.getVideos
    simp [hv]
  · intro sec lim off c st hmiss
    unfold Server.getVideos
    simp [hmiss]
  · intro did now c st
    constructor
    · unfold Server.getUserByDevice
      cases h : findByDevice st.users did <;> simp [h, hasCacheGet]
    · unfold Server.getUserByDevice
      cases h : findByDevice st.users did <;> simp [h]
  · intro did now c st u hfind
    unfold Server.getUserByDevice
    simp [hfind]

/-- The concrete store of the C8 witness. -/
def stW8 : Store :=
  { users := [{ id := 6, device_id := "dH", coins := 2,
                referral_code := "BGSHWR000006" }] }

/-- Witness for C8 amended: a by-id lookup on an empty cache reads the
store and populates the cache with the value it returns. -/
theorem read_paths_amended_witness :
    Server.getUserById 6 0 [] stW8
      = (.ok (.uview (mkIdView { id := 6, device_id := "dH", coins := 2,
                                 referral_code := "BGSHWR000006" } 0)),
         cset [] "user:6"
           (.uview (mkIdView { id := 6, device_id := "dH", coins := 2,
                               referral_code := "BGSHWR000006" } 0)),
         [.cacheGet "user:6", .storeRead, .cacheSet "user:6"]) := by
  have h := read_paths_amended.2.1 6 0 [] stW8
    { id := 6, device_id := "dH", coins := 2,
      referral_code := "BGSHWR000006" } rfl rfl
  simpa using h

/-! ### C9 — balance non-negativity over all reachable states -/

/-- The invariant, spelled out. -/
theorem coinsOK_iff (st : Store) :
    coinsOK st = true ↔ ∀ u ∈ st.users, 0 ≤ u.coins := by
  simp [coinsOK, List.all_eq_true]

/-- Mapping a coins-non-decreasing row update preserves the invariant. -/
theorem all_coins_map (l : List Account) (f : Account → Account)
    (hf : ∀ u, 0 ≤ u.coins → 0 ≤ (f u).coins)
    (h : ∀ u ∈ l, 0 ≤ u.coins) : ∀ u ∈ l.map f, 0 ≤ u.coins := by
  intro u hu
  rcases List.mem_map.mp hu with ⟨v, hv, rfl⟩
  exact hf v (h v hv)

/-- Appending rows with non-negative balances preserves the invariant. -/
theorem all_coins_append (l₁ l₂ : List Account)
    (h₁ : ∀ u ∈ l₁, 0 ≤ u.coins) (h₂ : ∀ u ∈ l₂, 0 ≤ u.coins) :
    ∀ u ∈ l₁ ++ l₂, 0 ≤ u.coins := by
  intro u hu
  rcases List.mem_append.mp hu with hm | hm
  · exact h₁ u hm
  · exact h₂ u hm

/-- None of the per-row updates can make a non-negative balance negative:
each either leaves `coins` unchanged or adds a positive bonus. -/
theorem bumps_coins_nonneg :
    (∀ did now u, 0 ≤ u.coins → 0 ≤ (startBump did now u).coins) ∧
    (∀ did d now u, 0 ≤ u.coins → 0 ≤ (endBump did d now u).coins) ∧
    (∀ did n p now u, 0 ≤ u.coins → 0 ≤ (profileUpd did n p now u).coins) ∧
    (∀ uid u, 0 ≤ u.coins → 0 ≤ (reviewBump uid u).coins) ∧
    (∀ uid u, 0 ≤ u.coins → 0 ≤ (shareBump uid u).coins) ∧
    (∀ code u, 0 ≤ u.coins → 0 ≤ (refBump code u).coins) ∧
    (∀ did now dur u, 0 ≤ u.coins → 0 ≤ (premiumBump did now dur u).coins) := by
  refine ⟨?_, ?_, ?_, ?_, ?_, ?_, ?_⟩
  · intro did now u h
    unfold startBump
    split <;> exact h
  · intro did d now u h
    unfold endBump
    split <;> exact h
  · intro did n p now u h
    unfold profileUpd
    split <;> exact h
  · intro uid u h
    unfold reviewBump
    split
    · show (0 : Int) ≤ u.coins + 50
      omega
    · exact h
  · intro uid u h
    unfold shareBump
    split
    · show (0 : Int) ≤ u.coins + 10
      omega
    · exact h
  · intro code u h
    unfold refBump
    split
    · show (0 : Int) ≤ u.coins + 10
      omega
    · exact h
  · intro did now dur u h
    unfold premiumBump
    split <;> exact h

/-- One operation preserves balance non-negativity. -/
theorem applyOp_coins (st : Store) (op : Op)
    (h : ∀ u ∈ st.users, 0 ≤ u.coins) :
    ∀ u ∈ (applyOp st op).users, 0 ≤ u.coins := by
  cases op with
  | profile n p d co r now =>
    simp only [applyOp]
    cases hres : Server.profile n p d co r now st with
    | none => exact h
    | some res =>
      unfold Server.profile at hres
      dsimp only at hres
      split at hres
      · cases hres
        exact h
      · split at hres
        · cases hres
          exact all_coins_map _ _ (bumps_coins_nonneg.2.2.1 d n p now) h
        · split at hres
          · cases hres
          · cases hres
            dsimp only
            apply all_coins_append _ _ h
            intro u hu
            rcases List.mem_singleton.mp hu with rfl
            norm_num
  | register d rc r =>
    simp only [applyOp]
    cases hres : Server.registerDevice d rc r st with
    | none => exact h
    | some res =>
      unfold Server.registerDevice Server.finishRegister at hres
      dsimp only at hres
      split at hres
      · cases hres
        exact h
      · split at hres
        · cases hres
          exact h
        · split at hres
          · split at hres
            · split at hres
              · cases hres
              · cases hres
                dsimp only
                apply all_coins_append
                · exact all_coins_map _ _
                    (fun u hu => (bumps_coins_nonneg.2.2.2.2.2.1 _ u hu)) h
                · intro u hu
                  rcases List.mem_singleton.mp hu with rfl
                  norm_num [regAcct]
            · split at hres
              · cases hres
              · cases hres
                dsimp only
                apply all_coins_append _ _ h
                intro u hu
                rcases List.mem_singleton.mp hu with rfl
                norm_num [regAcct]
          · split at hres
            · cases hres
            · cases hres
              dsimp only
              apply all_coins_append _ _ h
              intro u hu
              rcases List.mem_singleton.mp hu with rfl
              norm_num [regAcct]
  | review uid =>
    simp only [applyOp]
    unfold Server.submitReview
    split
    · exact h
    · split
      · exact h
      · split
        · exact h
        · exact all_coins_map _ _ (bumps_coins_nonneg.2.2.2.1 uid) h
  | share uid sid =>
    simp only [applyOp]
    unfold Server.shareApp
    split
    · exact h
    · split
      · exact h
      · exact all_coins_map _ _ (bumps_coins_nonneg.2.2.2.2.1 uid) h
  | review2 uid =>
    simp only [applyOp]
    unfold Rev2.submitReview
    split
    · exact h
    · split
      · exact h
      · split
        · exact h
        · exact all_coins_map _ _ (bumps_coins_nonneg.2.2.2.1 uid) h
  | share2 uid sid =>
    simp only [applyOp]
    unfold Rev2.shareApp
    split
    · exact h
    · split
      · exact h
      · split
        · exact h
        · split
          · exact h
          · exact all_coins_map _ _ (bumps_coins_nonneg.2.2.2.2.1 uid) h
  | sstart d s hx now =>
    simp only [applyOp]
    unfold Server.sessionStart
    dsimp only
    split
    · exact h
    · split
      · dsimp only
        apply all_coins_append
        · exact all_coins_map _ _ (bumps_coins_nonneg.1 d now) h
        · intro u hu
          rcases List.mem_singleton.mp hu with rfl
          norm_num
      · exact all_coins_map _ _ (bumps_coins_nonneg.1 d now) h
  | send d s dur now =>
    simp only [applyOp]
    unfold Server.sessionEnd
    dsimp only
    split
    · exact h
    · split
      · exact all_coins_map _ _ (bumps_coins_nonneg.2.1 d dur.toNat now) h
      · exact h
  | premium d now =>
    simp only [applyOp]
    unfold Server.activatePremium
    dsimp only
    split
    · exact h
    · split
      · exact all_coins_map _ _
          (bumps_coins_nonneg.2.2.2.2.2.2 d now (st.planDuration.getD 30)) h
      · exact all_coins_map _ _
          (bumps_coins_nonneg.2.2.2.2.2.2 d now (st.planDuration.getD 30)) h

/-- C9: every reachable state — the result of any sequence of supported
operations (profile write, device registration with referral credit, review
bonus, share bonus in either revision, session start/end, premium
activation) run from the initial store — satisfies `coins ≥ 0` on every
account: no operation ever subtracts coins. -/
theorem coins_nonneg_invariant (ops : List Op) : coinsOK (runOps ops) = true := by
  suffices hstep : ∀ st, coinsOK st = true → coinsOK (ops.foldl applyOp st) = true by
    exact hstep Store.init rfl
  induction ops with
  | nil => intro st hst; exact hst
  | cons op rest ih =>
    intro st hst
    exact ih _ ((coinsOK_iff _).mpr (applyOp_coins st op ((coinsOK_iff _).mp hst)))

/-! ### C3 — the running average after sequential sessions -/

/-- Successful session-end in closed form. -/
theorem sessionEnd_success (st : Store) (did sid : String) (dur : Int)
    (now : Nat) (hd : did ≠ "") (hs : sid ≠ "") (hdur : 0 ≤ dur)
    (hany : st.sessions.any
      (fun s => s.session_id == sid && s.device_id == did) = true) :
    Server.sessionEnd did sid dur now st
      = (.ok 200,
         { st with
             sessions := st.sessions.map (endSessRow sid did dur.toNat now),
             users := st.users.map (endBump did dur.toNat now) },
         [.storeRead, .storeWrite, .storeWrite, .commit,
          .cacheDel ("session:" ++ sid),
          .cacheDel ("user_device:" ++ did)]) := by
  have hneg : ¬ dur < 0 := not_lt.mpr hdur
  unfold Server.sessionEnd
  simp [hd, hs, hneg, hany]

/-- Session-start in closed form when the device has an account row. -/
theorem sessionStart_existing (st : Store) (did sid hex : String) (now : Nat)
    (hd : did ≠ "") (hs : sid ≠ "")
    (hlen : (st.users.filter (fun v => v.device_id == did)).length ≠ 0) :
    Server.sessionStart did sid hex now st
      = (.ok 200,
         { st with
             sessions := st.sessions ++
               [{ device_id := did, session_id := sid, start_time := now,
                  session_duration := 0 }],
             users := st.users.map (startBump did now) },
         [.storeWrite, .storeWrite, .commit]) := by
  unfold Server.sessionStart
  simp [hd, hs, hlen]

/-- Session-start in closed form when the device has no account row. -/
theorem sessionStart_new (st : Store) (did sid hex : String) (now : Nat)
    (hd : did ≠ "") (hs : sid ≠ "")
    (hlen : (st.users.filter (fun v => v.device_id == did)).length = 0) :
    Server.sessionStart did sid hex now st
      = (.ok 200,
         { st with
             sessions := st.sessions ++
               [{ device_id := did, session_id := sid, start_time := now,
                  session_duration := 0 }],
             users := st.users.map (startBump did now)
               ++ [{ id := nextId (st.users.map (startBump did now)),
                     device_id := did, coins := 0,
                     referral_code := "FREE_" ++ hex, app_opens := 1,
                     last_active := now }] },
         [.storeWrite, .storeWrite, .storeWrite, .commit]) := by
  unfold Server.sessionStart
  simp [hd, hs, hlen]

/-- The device's rows after the session-start UPDATE. -/
theorem filter_map_startBump (l : List Account) (did : String) (now : Nat) :
    (l.map (startBump did now)).filter (fun v => v.device_id == did)
      = (l.filter (fun v => v.device_id == did)).map
          (fun v => { v with app_opens := v.app_opens + 1,
                             last_active := now }) :=
  usersOf_map_guard l did _ (fun _ => rfl)

/-- The device's rows after the session-end UPDATE. -/
theorem filter_map_endBump (l : List Account) (did : String) (d now : Nat) :
    (l.map (endBump did d now)).filter (fun v => v.device_id == did)
      = (l.filter (fun v => v.device_id == did)).map (fun v =>
          { v with
              app_opens := v.app_opens + 1,
              total_session_duration := v.total_session_duration + d,
              last_active := now,
              avg_session_duration :=
                avgCase v.app_opens v.total_session_duration d }) :=
  usersOf_map_guard l did _ (fun _ => rfl)

/-- Congruence for the average expression. -/
theorem maxRound_congr (a b c e : Nat) (h1 : a = c) (h2 : b = e) :
    max 1 (roundDiv a b) = max 1 (roundDiv c e) := by rw [h1, h2]

/-- One start/end round for a device holding exactly one account row:
`app_opens` advances by 2 (one increment per call), the total by the
duration, and the recomputed average divides by the doubly-incremented
counter. -/
theorem startEnd_step (st : Store) (did sid hex : String) (d : Int)
    (u : Account) (hd : did ≠ "") (hs : sid ≠ "") (hdur : 0 ≤ d)
    (hu : usersOf st did = [u]) :
    usersOf (Server.sessionEnd did sid d 0
        (Server.sessionStart did sid hex 0 st).2.1).2.1 did
      = [{ u with
             app_opens := u.app_opens + 2,
             total_session_duration := u.total_session_duration + d.toNat,
             last_active := 0,
             avg_session_duration :=
               max 1 (roundDiv (u.total_session_duration + d.toNat)
                               (u.app_opens + 2)) }] := by
  have hlen : (st.users.filter (fun v => v.device_id == did)).length ≠ 0 := by
    unfold usersOf at hu
    rw [hu]
    simp
  rw [sessionStart_existing st did sid hex 0 hd hs hlen]
  dsimp only
  have hany : (st.sessions ++
      [{ device_id := did, session_id := sid, start_time := 0,
         session_duration := 0 : Session }]).any
        (fun s => s.session_id == sid && s.device_id == did) = true := by
    simp
  rw [sessionEnd_success _ did sid d 0 hd hs hdur hany]
  dsimp only
  unfold usersOf at hu ⊢
  dsimp only
  rw [filter_map_endBump, filter_map_startBump, hu]
  simp [avgCase]

/-- The first start/end round for a device with no account row: the account
is created by the start (opens = 1), so after the end it has opens = 2,
total = d and average max(1, round(d / 2)). -/
theorem startEnd_first (st : Store) (did sid hex : String) (d : Int)
    (hd : did ≠ "") (hs : sid ≠ "") (hdur : 0 ≤ d)
    (hu : usersOf st did = []) :
    usersOf (Server.sessionEnd did sid d 0
        (Server.sessionStart did sid hex 0 st).2.1).2.1 did
      = [{ id := nextId (st.users.map (startBump did 0)), device_id := did,
           coins := 0, referral_code := "FREE_" ++ hex, app_opens := 2,
           total_session_duration := d.toNat, last_active := 0,
           avg_session_duration := max 1 (roundDiv d.toNat 2) }] := by
  have hlen : (st.users.filter (fun v => v.device_id == did)).length = 0 := by
    unfold usersOf at hu
    rw [hu]
    rfl
  rw [sessionStart_new st did sid hex 0 hd hs hlen]
  dsimp only
  have hany : ((st.sessions ++
      [{ device_id := did, session_id := sid, start_time := 0,
         session_duration := 0 : Session }]) : List Session).any
        (fun s => s.session_id == sid && s.device_id == did) = true := by
    simp
  rw [sessionEnd_success _ did sid d 0 hd hs hdur hany]
  dsimp only
  unfold usersOf at hu ⊢
  dsimp only
  rw [List.map_append, List.filter_append, filter_map_endBump,
    filter_map_startBump, hu]
  simp [endBump, avgCase]

/-- Flow invariant: from a store where the device holds exactly one account
row, each (start, end) round adds 2 to `app_opens` and the duration to the
total, and after at least one round the average is
max(1, round(total / app_opens)). -/
theorem flow_inv (did hex : String) (hd : did ≠ "") :
    ∀ (pairs : List (String × Int)),
      (∀ p ∈ pairs, p.1 ≠ "" ∧ 0 ≤ p.2) →
    ∀ st u, usersOf st did = [u] →
    ∃ w, usersOf (startEndFlow did hex st pairs) did = [w] ∧
      w.app_opens = u.app_opens + 2 * pairs.length ∧
      w.total_session_duration = u.total_session_duration + sumDur pairs ∧
      (pairs = [] → w = u) ∧
      (pairs ≠ [] → w.avg_session_duration =
        max 1 (roundDiv (u.total_session_duration + sumDur pairs)
                        (u.app_opens + 2 * pairs.length))) := by
  intro pairs
  induction pairs with
  | nil =>
    intro _ st u hu
    exact ⟨u, hu, by simp, by simp [sumDur], fun _ => rfl,
      fun hne => absurd rfl hne⟩
  | cons p rest ih =>
    intro hvalid st u hu
    obtain ⟨sid, dd⟩ := p
    obtain ⟨hp1, hp2⟩ := hvalid (sid, dd) (List.mem_cons_self _ _)
    have hstep := startEnd_step st did sid hex dd u hd hp1 hp2 hu
    have hsum : sumDur ((sid, dd) :: rest) = dd.toNat + sumDur rest := by
      simp [sumDur]
    obtain ⟨w, hw, hopens, htotal, hnil, hne⟩ :=
      ih (fun q hq => hvalid q (List.mem_cons_of_mem _ hq)) _ _ hstep
    dsimp only at hopens htotal hne
    refine ⟨w, hw, ?_, ?_, ?_, ?_⟩
    · simp only [List.length_cons]
      omega
    · rw [hsum]
      omega
    · intro habs
      exact absurd habs (List.cons_ne_nil _ _)
    · intro _
      cases rest with
      | nil =>
        rw [hnil rfl]
        dsimp only
        exact maxRound_congr _ _ _ _ (by rw [hsum]; simp [sumDur])
          (by simp)
      | cons q rest2 =>
        rw [hne (List.cons_ne_nil _ _)]
        exact maxRound_congr _ _ _ _ (by rw [hsum]; omega)
          (by simp only [List.length_cons]; omega)

/-- C3 amended: after each end-session call of a sequential
start-then-end session flow for a device with no prior account, the
account's `avg_session_duration` equals
`max(1, round((sum of the durations ended so far) / (2 × number of sessions
ended so far)))` — the denominator is `app_opens`, which both session-start
and session-end increment (one session contributes 2), NOT the number of
sessions ended as the spec's formula `max(1, (Σdi)/n)` states; the rounding
is the `numeric → integer` half-up cast. -/
theorem session_avg_amended (st : Store) (did hex : String)
    (pairs : List (String × Int)) (hd : did ≠ "")
    (hvalid : ∀ p ∈ pairs, p.1 ≠ "" ∧ 0 ≤ p.2)
    (hnew : usersOf st did = []) (hne : pairs ≠ []) :
    ∃ w, usersOf (startEndFlow did hex st pairs) did = [w] ∧
      w.app_opens = 2 * pairs.length ∧
      w.total_session_duration = sumDur pairs ∧
      w.avg_session_duration
        = max 1 (roundDiv (sumDur pairs) (2 * pairs.length)) := by
  cases pairs with
  | nil => exact absurd rfl hne
  | cons p rest =>
    obtain ⟨sid, dd⟩ := p
    obtain ⟨hp1, hp2⟩ := hvalid (sid, dd) (List.mem_cons_self _ _)
    have hfirst := startEnd_first st did sid hex dd hd hp1 hp2 hnew
    have hsum : sumDur ((sid, dd) :: rest) = dd.toNat + sumDur rest := by
      simp [sumDur]
    obtain ⟨w, hw, hopens, htotal, hnil, hner⟩ :=
      flow_inv did hex hd rest
        (fun q hq => hvalid q (List.mem_cons_of_mem _ hq)) _ _ hfirst
    dsimp only at hopens htotal hner
    refine ⟨w, hw, ?_, ?_, ?_⟩
    · simp only [List.length_cons]
      omega
    · rw [hsum]
      omega
    · cases rest with
      | nil =>
        rw [hnil rfl]
        dsimp only
        exact maxRound_congr _ _ _ _ (by rw [hsum]; simp [sumDur])
          (by simp)
      | cons q rest2 =>
        rw [hner (List.cons_ne_nil _ _)]
        exact maxRound_congr _ _ _ _ (by rw [hsum])
          (by simp only [List.length_cons]; omega)

/-- Counterexample to C3 as stated: one session of duration 4, started then
ended on a fresh store.  The spec formula says the average should be
max(1, 4/1) = 4 after the single end-session call, but the account ends
with `avg_session_duration = 2`: session-start had already incremented
`app_opens`, so the end-session recomputation divides by 2. -/
theorem session_avg_counterexample :
    (usersOf (startEndFlow "dI" "abcd1234" Store.init [("s1", 4)]) "dI").map
        (fun u => u.avg_session_duration) = [2] ∧
    specAvg [4] = 4 := by
  exact ⟨rfl, rfl⟩

/-- Witness for C3 amended: two sessions of durations 3 and 5 → app_opens 4,
total 8, average max(1, round(8/4)) = 2. -/
theorem session_avg_amended_witness :
    ∃ w, usersOf (startEndFlow "dJ" "beefbeef" Store.init
          [("s1", 3), ("s2", 5)]) "dJ" = [w] ∧
      w.app_opens = 4 ∧ w.total_session_duration = 8 ∧
      w.avg_session_duration = 2 := by
  have h := session_avg_amended Store.init "dJ" "beefbeef"
    [("s1", 3), ("s2", 5)] (by decide) (by decide) (by rfl) (by decide)
  obtain ⟨w, hw, h1, h2, h3⟩ := h
  exact ⟨w, hw, by simpa using h1, by simpa [sumDur] using h2,
    by simpa [sumDur, roundDiv] using h3⟩

end VideoApi
